import Mathlib

/-
Shallow embedding of the data-reshaping pipeline of src/src/App.jsx
(uas-teen-explorer).  The pipeline lives in the body of `App`:

  filteredData  = summaries.filter(d => d.demographic === selectedDemographic)
  itemData      = filteredData.filter(d => metadata.score_types.items.includes(d.item))
  scaleData     = filteredData.filter(d => metadata.score_types.scales.includes(d.item))
  groups        = [...new Set(filteredData.map(d => d.group))]
  prepareChartData(data) =
    items = [...new Set(data.map(d => d.item))]
    items.map(item =>
      itemRows = data.filter(d => d.item === item)
      row = { item, label: itemRows[0]?.item_label || item }
      itemRows.forEach(r => { row[r.group] = r.mean; row[g_ci] = [ci_lower, ci_upper];
                              row[g_n] = r.n; row[g_sd] = r.sd })
      row)
  chartData = selectedView === 'items' ? prepareChartData(itemData)
                                       : prepareChartData(scaleData)

Statistical values (mean, sd, ci bounds) are only carried through the pivot,
never computed with, so they are embedded as rationals; the sample size n is a
natural number.  Following the data-model note of the specification, a pivoted
row's four group-keyed fields (g, g_ci, g_n, g_sd), which are always written
together by the same forEach body, are embedded as one mapping from the group
key to a record of the four statistics; absence of the key models the absence
of all four JS object properties.
-/

namespace UasTeenExplorer

/-- One summary record of data/summaries.json, as consumed by App.jsx.
`item_label` is optional in the data (JS `undefined` when missing). -/
structure SummaryRecord where
  item : String
  item_label : Option String
  demographic : String
  group : String
  mean : ℚ
  sd : ℚ
  n : ℕ
  ci_lower : ℚ
  ci_upper : ℚ
deriving DecidableEq, Repr

/-- The `score_types` field of metadata.json: the two category lists. -/
structure ScoreTypes where
  items : List String
  scales : List String
deriving DecidableEq, Repr

/-- The metadata.json descriptor as read by App.jsx. -/
structure Metadata where
  sample_size : ℕ
  demographics : List String
  score_types : ScoreTypes
deriving DecidableEq, Repr

/-- JS `[...new Set(l)]`: inserts elements left to right into a Set, which keeps
the first occurrence of each value, and spreads them back in insertion order. -/
def jsSetDedup (l : List String) : List String :=
  l.foldl (fun acc x => if x ∈ acc then acc else acc ++ [x]) []

/-- Structural characterisation of first-occurrence deduplication: keep the
head, then deduplicate the tail and drop later copies of the head. -/
def dedupFirst : List String → List String
  | [] => []
  | x :: xs => x :: (dedupFirst xs).filter (fun y => y ≠ x)

/-- Line 72: `summaries.filter(d => d.demographic === selectedDemographic)`. -/
def filterByDemographic (records : List SummaryRecord) (k : String) :
    List SummaryRecord :=
  records.filter (fun d => d.demographic = k)

/-- Lines 75-77: `filteredData.filter(d => metadata.score_types.items.includes(d.item))`. -/
def itemData (subset : List SummaryRecord) (md : Metadata) : List SummaryRecord :=
  subset.filter (fun d => d.item ∈ md.score_types.items)

/-- Lines 78-80: `filteredData.filter(d => metadata.score_types.scales.includes(d.item))`. -/
def scaleData (subset : List SummaryRecord) (md : Metadata) : List SummaryRecord :=
  subset.filter (fun d => d.item ∈ md.score_types.scales)

/-- Line 83: `const groups = [...new Set(filteredData.map(d => d.group))]`. -/
def discoverGroups (subset : List SummaryRecord) : List String :=
  jsSetDedup (subset.map (·.group))

/-- The four statistics written onto a pivoted row for one group key by the
forEach body of prepareChartData (lines 94-99). -/
structure GroupStats where
  mean : ℚ
  ci : ℚ × ℚ
  n : ℕ
  sd : ℚ
deriving DecidableEq, Repr

/-- The four statistics of a record, as the forEach body writes them. -/
def statsOf (r : SummaryRecord) : GroupStats :=
  { mean := r.mean, ci := (r.ci_lower, r.ci_upper), n := r.n, sd := r.sd }

/-- A pivoted output row: the fixed `item` and `label` fields plus the
group-keyed cells, one cell per group key ever assigned (see header note). -/
structure ChartRow where
  item : String
  label : String
  cells : String → Option GroupStats

/-- One iteration of the forEach body (lines 94-99): overwrite the cell keyed
by the record's group with that record's four statistics. -/
def applyRow (cells : String → Option GroupStats) (r : SummaryRecord) :
    String → Option GroupStats :=
  fun g => if r.group = g then some (statsOf r) else cells g

/-- JS `x || item` for the label initialisation: an absent (`undefined`) or
empty-string (falsy) label falls back to the item key. -/
def jsLabelOr (x : Option String) (item : String) : String :=
  match x with
  | some s => if s = "" then item else s
  | none => item

/-- Lines 86-102: `prepareChartData`. -/
def prepareChartData (data : List SummaryRecord) : List ChartRow :=
  (jsSetDedup (data.map (·.item))).map (fun item =>
    let itemRows := data.filter (fun d => d.item = item)
    { item := item
      label := jsLabelOr (itemRows.head?.bind (·.item_label)) item
      cells := itemRows.foldl applyRow (fun _ => none) })

/-- Lines 104-106: `chartData` picks the category subset by the selected view. -/
def chartData (selectedView : String) (iData sData : List SummaryRecord) :
    List ChartRow :=
  if selectedView = "items" then prepareChartData iData else prepareChartData sData

/-- The React state of App (lines 20-25): summaries and metadata start at
`[]` / `null`, loading starts true, error starts `null`. -/
structure AppState where
  summaries : List SummaryRecord
  metadata : Option Metadata
  loading : Bool
  error : Option String

/-- The initial state set by the useState calls. -/
def initState : AppState :=
  { summaries := [], metadata := none, loading := true, error := none }

/-- The outcome of one `fetch(...).then(r => r.json())`: either the parsed
payload or a rejection (network error or non-parseable content). -/
def FetchResult (α : Type) : Type := Except String α

/-- `Promise.all` over the two fetches (lines 28-31): fulfils with the pair
when both fulfil, rejects as soon as either rejects. -/
def promiseAll2 (a : FetchResult (List SummaryRecord)) (b : FetchResult Metadata) :
    FetchResult (List SummaryRecord × Metadata) :=
  match a, b with
  | .ok x, .ok y => .ok (x, y)
  | .error e, _ => .error e
  | .ok _, .error e => .error e

/-- The message installed by the catch handler (line 38). -/
def loadFailureMessage : String :=
  "Failed to load data. Please run the R scripts first."

/-- The then/catch handlers of the load effect (lines 32-40): on fulfilment
write both stores and clear loading; on rejection set the error message and
clear loading, leaving both stores untouched. -/
def loadEffect (s : AppState) (r : FetchResult (List SummaryRecord × Metadata)) :
    AppState :=
  match r with
  | .ok (sd, md) => { s with summaries := sd, metadata := some md, loading := false }
  | .error _ => { s with error := some loadFailureMessage, loading := false }

/-- What one render of App produces, abstracted to the branch taken: the
loading early return (lines 43-50), the error early return (lines 52-69), a
crash on a `null` metadata dereference (unreachable after a successful load),
or the dashboard, carrying every derived structure the reshaping pipeline
computes on that render (lines 72-106). -/
inductive RenderResult where
  | loadingView : RenderResult
  | errorView : String → RenderResult
  | nullMetadataCrash : RenderResult
  | dashboard : List SummaryRecord → List SummaryRecord → List SummaryRecord →
      List String → List ChartRow → RenderResult

/-- One render of App for a given state and the two selections: the guards of
lines 43 and 52 return before any filter/group-discovery/pivot code runs;
otherwise the pipeline of lines 72-106 runs on the stored records. -/
def renderApp (s : AppState) (selectedDemographic selectedView : String) :
    RenderResult :=
  if s.loading then .loadingView
  else
    match s.error with
    | some msg => .errorView msg
    | none =>
      match s.metadata with
      | none => .nullMetadataCrash
      | some md =>
        let filtered := filterByDemographic s.summaries selectedDemographic
        let iData := itemData filtered md
        let sData := scaleData filtered md
        .dashboard filtered iData sData (discoverGroups filtered)
          (chartData selectedView iData sData)

/-- Modelled from the spec: the group list that claim C7 says is consumed
downstream, namely Group Discovery run on the selected category's subset
(the item subset when view = "items", the scale subset otherwise) rather
than on the whole demographic-filtered subset. -/
def discoverGroupsOnCategory (s : AppState) (md : Metadata)
    (selectedDemographic selectedView : String) : List String :=
  let filtered := filterByDemographic s.summaries selectedDemographic
  if selectedView = "items" then discoverGroups (itemData filtered md)
  else discoverGroups (scaleData filtered md)

/- Concrete data used to instantiate the theorems below on closed inputs. -/

/-- A record of the end-to-end scenario: item i1, group All, demographic
Overall, with simple rational statistics. -/
def wRec1 : SummaryRecord :=
  { item := "i1", item_label := some "Item One", demographic := "Overall"
    group := "All", mean := 3, sd := 1, n := 150, ci_lower := 2, ci_upper := 4 }

/-- A duplicate of wRec1's (item, group) pair with different statistics, to
exercise the last-write-wins overwrite. -/
def wRec2 : SummaryRecord :=
  { item := "i1", item_label := some "Item One", demographic := "Overall"
    group := "All", mean := 4, sd := 2, n := 20, ci_lower := 3, ci_upper := 5 }

/-- A two-record input holding a duplicate (item, group) pair. -/
def wData : List SummaryRecord := [wRec1, wRec2]

/-- The pivoted row prepareChartData builds for item i1 of wData (definitionally
the element of `prepareChartData wData`). -/
def wRow : ChartRow :=
  { item := "i1"
    label := jsLabelOr
      (((wData.filter (fun d => d.item = "i1")).head?).bind (·.item_label)) "i1"
    cells := (wData.filter (fun d => d.item = "i1")).foldl applyRow (fun _ => none) }

/-- Metadata classifying i1 as an item and s1 as a scale. -/
def wMd : Metadata :=
  { sample_size := 150, demographics := ["Overall"]
    score_types := { items := ["i1"], scales := ["s1"] } }

/-- A record whose `item_label` is present but empty (falsy in JS). -/
def cexLabelRecord : SummaryRecord :=
  { item := "a", item_label := some "", demographic := "Overall"
    group := "X", mean := 1, sd := 0, n := 1, ci_lower := 0, ci_upper := 2 }

/-- The pivoted row prepareChartData builds for item a of [cexLabelRecord]. -/
def cexLabelRow : ChartRow :=
  { item := "a"
    label := jsLabelOr
      ((([cexLabelRecord].filter (fun d => d.item = "a")).head?).bind (·.item_label)) "a"
    cells := ([cexLabelRecord].filter (fun d => d.item = "a")).foldl applyRow
      (fun _ => none) }

/-- A record of group Male followed by Female then Male again, for the group
discovery ordering scenario. -/
def gRec (g : String) : SummaryRecord :=
  { item := "a", item_label := none, demographic := "Gender"
    group := g, mean := 0, sd := 0, n := 0, ci_lower := 0, ci_upper := 0 }

/-- The subset whose groups are encountered in order Male, Female, Male. -/
def gSubset : List SummaryRecord := [gRec "Male", gRec "Female", gRec "Male"]

/-- A classified item record of group A (for the C7 scenario). -/
def cexItemRec : SummaryRecord :=
  { item := "i1", item_label := none, demographic := "Overall"
    group := "A", mean := 1, sd := 0, n := 1, ci_lower := 0, ci_upper := 2 }

/-- A classified scale record of group B (for the C7 scenario): group B occurs
only on the scale record, never on an item record. -/
def cexScaleRec : SummaryRecord :=
  { item := "s1", item_label := none, demographic := "Overall"
    group := "B", mean := 1, sd := 0, n := 1, ci_lower := 0, ci_upper := 2 }

/-- A loaded, error-free state holding the two C7 records and wMd. -/
def cexState : AppState :=
  { summaries := [cexItemRec, cexScaleRec], metadata := some wMd
    loading := false, error := none }

/-- A rejected summaries fetch (e.g. a network error). -/
def wFetchFail : FetchResult (List SummaryRecord) := .error "network"

/-- A fulfilled metadata fetch returning wMd. -/
def wFetchMd : FetchResult Metadata := .ok wMd

/-- The group list carried by a dashboard render, when one was produced. -/
def dashboardGroups : RenderResult → Option (List String)
  | .dashboard _ _ _ gs _ => some gs
  | _ => none

/- Helper lemmas on first-occurrence deduplication. -/

lemma mem_dedupFirst {x : String} : ∀ {l : List String}, x ∈ dedupFirst l ↔ x ∈ l
  | [] => Iff.rfl
  | y :: ys => by
    simp only [dedupFirst, List.mem_cons, List.mem_filter, decide_eq_true_eq]
    constructor
    · rintro (rfl | ⟨h, -⟩)
      · exact .inl rfl
      · exact .inr (mem_dedupFirst.mp h)
    · rintro (rfl | h)
      · exact .inl rfl
      · by_cases hxy : x = y
        · exact .inl hxy
        · exact .inr ⟨mem_dedupFirst.mpr h, hxy⟩

lemma nodup_dedupFirst : ∀ l : List String, (dedupFirst l).Nodup
  | [] => List.nodup_nil
  | y :: ys => by
    simp only [dedupFirst, List.nodup_cons]
    refine ⟨fun hy => ?_, List.Nodup.filter _ (nodup_dedupFirst ys)⟩
    simp at hy

lemma dedupFirst_filter (p : String → Bool) :
    ∀ l : List String, dedupFirst (l.filter p) = (dedupFirst l).filter p := by
  intro l
  induction l with
  | nil => rfl
  | cons x xs ih =>
    by_cases hp : p x
    · rw [List.filter_cons_of_pos hp]
      show dedupFirst (x :: xs.filter p)
          = (x :: (dedupFirst xs).filter (fun y => y ≠ x)).filter p
      rw [List.filter_cons_of_pos hp]
      show x :: (dedupFirst (xs.filter p)).filter (fun y => y ≠ x) = _
      rw [ih, List.filter_filter, List.filter_filter]
      congr 1
      apply List.filter_congr
      intro y _
      simp [Bool.and_comm]
    · rw [List.filter_cons_of_neg hp]
      show dedupFirst (xs.filter p)
          = (x :: (dedupFirst xs).filter (fun y => y ≠ x)).filter p
      rw [List.filter_cons_of_neg hp, ih, List.filter_filter]
      apply List.filter_congr
      intro y hy
      by_cases hyx : y = x
      · subst hyx; simp [hp]
      · simp [hyx]

lemma jsSetDedup_go :
    ∀ (l acc : List String),
      l.foldl (fun acc x => if x ∈ acc then acc else acc ++ [x]) acc =
        acc ++ dedupFirst (l.filter (fun y => y ∉ acc)) := by
  intro l
  induction l with
  | nil => intro acc; simp [dedupFirst]
  | cons x xs ih =>
    intro acc
    rw [List.foldl_cons]
    by_cases hx : x ∈ acc
    · rw [if_pos hx, ih acc, List.filter_cons_of_neg (by simp [hx])]
    · rw [if_neg hx, ih (acc ++ [x]), List.filter_cons_of_pos (by simp [hx])]
      show acc ++ [x] ++ dedupFirst (xs.filter fun y => decide (y ∉ acc ++ [x])) =
        acc ++ (x :: (dedupFirst (xs.filter fun y => decide (y ∉ acc))).filter
          (fun y => y ≠ x))
      rw [List.append_assoc]
      congr 1
      have h1 : (xs.filter fun y => decide (y ∉ acc ++ [x])) =
          ((xs.filter fun y => decide (y ∉ acc)).filter (fun y => y ≠ x)) := by
        rw [List.filter_filter]
        apply List.filter_congr
        intro y _
        by_cases hya : y ∈ acc <;> by_cases hyx : y = x <;> simp [hya, hyx]
      rw [h1, dedupFirst_filter]
      rfl

lemma jsSetDedup_eq (l : List String) : jsSetDedup l = dedupFirst l := by
  rw [jsSetDedup, jsSetDedup_go l []]
  simp only [List.nil_append]
  congr 1
  apply (List.filter_eq_self).mpr
  intro y _
  simp

lemma mem_jsSetDedup {x : String} {l : List String} : x ∈ jsSetDedup l ↔ x ∈ l := by
  rw [jsSetDedup_eq]; exact mem_dedupFirst

lemma nodup_jsSetDedup (l : List String) : (jsSetDedup l).Nodup := by
  rw [jsSetDedup_eq]; exact nodup_dedupFirst l

lemma dedupFirst_indexOf_sorted : ∀ l : List String,
    List.Sorted (fun a b : ℕ => a < b) ((dedupFirst l).map (fun x => l.indexOf x)) := by
  intro l
  induction l with
  | nil => simp [dedupFirst]
  | cons x xs ih =>
    show List.Sorted _ ((x :: (dedupFirst xs).filter (fun y => y ≠ x)).map _)
    rw [List.map_cons]
    apply List.sorted_cons.mpr
    have hmap : ((dedupFirst xs).filter (fun y => y ≠ x)).map
          (fun y => (x :: xs).indexOf y)
        = (((dedupFirst xs).filter (fun y => y ≠ x)).map (fun y => xs.indexOf y)).map
            (fun n => n + 1) := by
      rw [List.map_map]
      apply List.map_eq_map_iff.mpr
      intro y hy
      simp only [List.mem_filter, decide_eq_true_eq] at hy
      exact List.indexOf_cons_ne xs (Ne.symm hy.2)
    constructor
    · intro b hb
      rw [hmap] at hb
      simp only [List.mem_map] at hb
      obtain ⟨n, -, rfl⟩ := hb
      rw [List.indexOf_cons_self]
      omega
    · rw [hmap]
      refine List.Pairwise.map (R := fun a b : ℕ => a < b) _ (fun a b hab => by omega) ?_
      exact List.Pairwise.sublist (List.Sublist.map _ (List.filter_sublist _)) ih

lemma jsSetDedup_indexOf_sorted (l : List String) :
    List.Sorted (fun a b : ℕ => a < b) ((jsSetDedup l).map (fun x => l.indexOf x)) := by
  rw [jsSetDedup_eq]; exact dedupFirst_indexOf_sorted l

/- Helper lemmas on the pivot's cell map. -/

lemma foldl_applyRow (l : List SummaryRecord) (g : String) :
    ∀ init : String → Option GroupStats,
      (l.foldl applyRow init) g =
        match l.reverse.find? (fun r => r.group = g) with
        | some r => some (statsOf r)
        | none => init g := by
  induction l with
  | nil => intro init; rfl
  | cons r rs ih =>
    intro init
    rw [List.foldl_cons, ih (applyRow init r), List.reverse_cons, List.find?_append]
    cases h : rs.reverse.find? (fun r => decide (r.group = g)) with
    | some r' => rfl
    | none =>
      show applyRow init r g = _
      by_cases hg : r.group = g
      · simp [applyRow, hg, List.find?]
      · simp [applyRow, hg, List.find?]

lemma find?_filter {α : Type _} (q p : α → Bool) : ∀ l : List α,
    (l.filter p).find? q = l.find? (fun a => p a && q a) := by
  intro l
  induction l with
  | nil => rfl
  | cons a as ih =>
    by_cases hp : p a
    · rw [List.filter_cons_of_pos hp]
      by_cases hq : q a
      · rw [List.find?_cons_of_pos _ hq, List.find?_cons_of_pos _ (by simp [hp, hq])]
      · rw [List.find?_cons_of_neg _ (by simp [hq]),
          List.find?_cons_of_neg _ (by simp [hq]), ih]
    · rw [List.filter_cons_of_neg (by simp [hp]),
        List.find?_cons_of_neg _ (by simp [hp]), ih]

lemma prepareChartData_cells {data : List SummaryRecord} {row : ChartRow}
    (hrow : row ∈ prepareChartData data) (g : String) :
    row.cells g =
      (data.reverse.find? (fun d => d.item = row.item ∧ d.group = g)).map statsOf := by
  obtain ⟨item, hmem, rfl⟩ := List.mem_map.mp hrow
  show (List.foldl applyRow (fun _ => none) (data.filter (fun d => d.item = item))) g = _
  rw [foldl_applyRow, ← List.filter_reverse, find?_filter]
  have hpred : (fun a : SummaryRecord => decide (a.item = item) && decide (a.group = g))
      = (fun d : SummaryRecord => decide (d.item = item ∧ d.group = g)) := by
    funext a
    rw [Bool.decide_and]
  rw [hpred]
  cases data.reverse.find? (fun d => decide (d.item = item ∧ d.group = g)) with
  | some r => rfl
  | none => rfl

lemma prepareChartData_label {data : List SummaryRecord} {row : ChartRow}
    (hrow : row ∈ prepareChartData data) :
    row.label =
      jsLabelOr ((data.filter (fun d => d.item = row.item)).head?.bind (·.item_label))
        row.item := by
  obtain ⟨item, hmem, rfl⟩ := List.mem_map.mp hrow
  rfl

lemma prepareChartData_map_item (data : List SummaryRecord) :
    (prepareChartData data).map (·.item) = jsSetDedup (data.map (·.item)) := by
  rw [prepareChartData, List.map_map]
  exact List.map_id' _

lemma getLast?_filter_eq_find?_reverse (data : List SummaryRecord)
    (p : SummaryRecord → Bool) :
    (data.filter p).getLast? = data.reverse.find? p := by
  rw [List.getLast?_eq_head?_reverse, ← List.filter_reverse, List.filter_head?]

/-- C2: for every input list of records the pivot produces exactly one output
row per distinct `item` value of the list — the rows' item keys are exactly the
deduplicated item values of the input, without duplicates, covering exactly the
items occurring in the input — and the rows appear in first-occurrence order of
those item values: mapped to the index of their first occurrence in the input's
item sequence, the row keys are strictly increasing. -/
theorem C2_pivot_one_row_per_item_in_first_occurrence_order
    (data : List SummaryRecord) :
    (prepareChartData data).map (·.item) = jsSetDedup (data.map (·.item)) ∧
    ((prepareChartData data).map (·.item)).Nodup ∧
    (∀ i, i ∈ (prepareChartData data).map (·.item) ↔ i ∈ data.map (·.item)) ∧
    List.Sorted (fun a b : ℕ => a < b)
      (((prepareChartData data).map (·.item)).map
        (fun i => (data.map (·.item)).indexOf i)) := by
  refine ⟨prepareChartData_map_item data, ?_, fun i => ?_, ?_⟩
  · rw [prepareChartData_map_item]
    exact nodup_jsSetDedup _
  · rw [prepareChartData_map_item]
    exact mem_jsSetDedup
  · rw [prepareChartData_map_item]
    exact jsSetDedup_indexOf_sorted _

/-- C6: group discovery returns exactly the distinct values of the `group`
field across the subset — no duplicates, containing exactly the groups that
occur — in first-occurrence order (the discovered groups, mapped to the index
of their first occurrence in the subset's group sequence, are strictly
increasing); on the subset whose groups are encountered in order
Male, Female, Male it returns exactly [Male, Female]. -/
theorem C6_group_discovery_distinct_first_occurrence (subset : List SummaryRecord) :
    (discoverGroups subset).Nodup ∧
    (∀ g, g ∈ discoverGroups subset ↔ g ∈ subset.map (·.group)) ∧
    List.Sorted (fun a b : ℕ => a < b)
      ((discoverGroups subset).map (fun g => (subset.map (·.group)).indexOf g)) ∧
    discoverGroups gSubset = ["Male", "Female"] := by
  refine ⟨nodup_jsSetDedup _, fun g => mem_jsSetDedup, jsSetDedup_indexOf_sorted _, ?_⟩
  decide

/-- C4: the filter stage returns exactly the records whose `demographic` field
equals the key, by exact string comparison: every returned record matches,
each occurrence of a matching record is kept (counts are preserved), the
result is an order-preserving subset (a sublist) of the input, and when
nothing matches the result is the empty list, not an error. -/
theorem C4_filter_by_demographic_exact (records : List SummaryRecord) (k : String) :
    (∀ r ∈ filterByDemographic records k, r.demographic = k) ∧
    (∀ r : SummaryRecord, r.demographic = k →
      (filterByDemographic records k).count r = records.count r) ∧
    List.Sublist (filterByDemographic records k) records ∧
    ((∀ r ∈ records, r.demographic ≠ k) → filterByDemographic records k = []) := by
  refine ⟨fun r hr => ?_, fun r hr => ?_, List.filter_sublist _, fun h => ?_⟩
  · exact of_decide_eq_true (List.mem_filter.mp hr).2
  · exact List.count_filter (by simpa using hr)
  · exact List.filter_eq_nil_iff.mpr (by simpa using h)

/-- C4 witness: at the concrete two-record input wData and key Overall, the
filter keeps both occurrences of the matching records. -/
theorem C4_witness :
    (filterByDemographic wData "Overall").count wRec1 = wData.count wRec1 :=
  (C4_filter_by_demographic_exact wData "Overall").2.1 wRec1 (by decide)

/-- C5: each record of the filtered subset lands in exactly one of
(itemData, scaleData) when its `item` belongs to exactly one of the metadata
category lists, and in neither when it belongs to neither list (silent drop,
no error — both partition functions are total); both outputs only draw from
the subset, and under the metadata invariant that no item key is in both
category lists the two outputs are disjoint. -/
theorem C5_partition_exclusive_and_silent_drop (subset : List SummaryRecord)
    (md : Metadata) :
    (∀ r ∈ subset,
      (r.item ∈ md.score_types.items ∧ r.item ∉ md.score_types.scales →
        r ∈ itemData subset md ∧ r ∉ scaleData subset md) ∧
      (r.item ∉ md.score_types.items ∧ r.item ∈ md.score_types.scales →
        r ∉ itemData subset md ∧ r ∈ scaleData subset md) ∧
      (r.item ∉ md.score_types.items ∧ r.item ∉ md.score_types.scales →
        r ∉ itemData subset md ∧ r ∉ scaleData subset md)) ∧
    (∀ r ∈ itemData subset md, r ∈ subset) ∧
    (∀ r ∈ scaleData subset md, r ∈ subset) ∧
    ((∀ x ∈ md.score_types.items, x ∉ md.score_types.scales) →
      ∀ r ∈ itemData subset md, r ∉ scaleData subset md) := by
  refine ⟨fun r hr => ⟨fun h => ?_, fun h => ?_, fun h => ?_⟩,
    fun r hr => (List.mem_filter.mp hr).1, fun r hr => (List.mem_filter.mp hr).1,
    fun hdisj r hri hrs => ?_⟩
  · exact ⟨List.mem_filter.mpr ⟨hr, by simpa using h.1⟩,
      fun hc => h.2 (by simpa using (List.mem_filter.mp hc).2)⟩
  · exact ⟨fun hc => h.1 (by simpa using (List.mem_filter.mp hc).2),
      List.mem_filter.mpr ⟨hr, by simpa using h.2⟩⟩
  · exact ⟨fun hc => h.1 (by simpa using (List.mem_filter.mp hc).2),
      fun hc => h.2 (by simpa using (List.mem_filter.mp hc).2)⟩
  · exact hdisj r.item (by simpa using (List.mem_filter.mp hri).2)
      (by simpa using (List.mem_filter.mp hrs).2)

/-- C5 witness: on the singleton subset [wRec1] with metadata wMd, the record
(classified as an item and not a scale) lands in itemData and not in
scaleData, and the disjointness holds under wMd's disjoint category lists. -/
theorem C5_witness :
    (wRec1 ∈ itemData [wRec1] wMd ∧ wRec1 ∉ scaleData [wRec1] wMd) ∧
    wRec1 ∉ scaleData [wRec1] wMd :=
  ⟨((C5_partition_exclusive_and_silent_drop [wRec1] wMd).1 wRec1
      (by decide)).1 ⟨by decide, by decide⟩,
    (C5_partition_exclusive_and_silent_drop [wRec1] wMd).2.2.2 (by decide) wRec1
      (((C5_partition_exclusive_and_silent_drop [wRec1] wMd).1 wRec1
        (by decide)).1 ⟨by decide, by decide⟩).1⟩

/-- C1: every (item, group) pair of the input has a pivoted row for its item,
and each pivoted row's cell for a group g carries exactly the four statistical
values (mean, [ci_lower, ci_upper], n, sd) of the LAST record of the input with
that (item, group) pair; in particular a unique triple passes through
unchanged, and on duplicates the later-encountered record overwrites the
earlier one for all four fields at once. -/
theorem C1_pivot_last_write_wins (data : List SummaryRecord) :
    (∀ d ∈ data, ∃ row ∈ prepareChartData data, row.item = d.item) ∧
    (∀ row ∈ prepareChartData data, ∀ g : String,
      row.cells g =
        ((data.filter (fun d => d.item = row.item ∧ d.group = g)).getLast?).map
          statsOf) := by
  constructor
  · intro d hd
    exact ⟨_, List.mem_map_of_mem _
      (mem_jsSetDedup.mpr (List.mem_map_of_mem _ hd)), rfl⟩
  · intro row hrow g
    rw [prepareChartData_cells hrow g, getLast?_filter_eq_find?_reverse]

/-- C1 witness: on wData, whose two records share the (i1, All) pair, the
pivoted row's All cell carries exactly the later record's four statistics. -/
theorem C1_witness : wRow.cells "All" = some (statsOf wRec2) := by
  have h := (C1_pivot_last_write_wins wData).2 wRow
    (List.mem_map.mpr ⟨"i1", by decide, rfl⟩) "All"
  rw [h]
  rfl

/-- C3: for a row of the pivot output and any group g, if no input record has
that row's item together with group g then the row's g cell is absent, and if
some such record exists the cell is set. -/
theorem C3_sparse_group_keys (data : List SummaryRecord) (row : ChartRow)
    (hrow : row ∈ prepareChartData data) (g : String) :
    ((¬ ∃ d ∈ data, d.item = row.item ∧ d.group = g) → row.cells g = none) ∧
    ((∃ d ∈ data, d.item = row.item ∧ d.group = g) → (row.cells g).isSome = true) := by
  constructor
  · intro h
    rw [prepareChartData_cells hrow g]
    have hnone : data.reverse.find? (fun d => d.item = row.item ∧ d.group = g)
        = none := by
      apply List.find?_eq_none.mpr
      intro x hx
      simp only [decide_eq_true_eq]
      exact fun hc => h ⟨x, List.mem_reverse.mp hx, hc⟩
    rw [hnone]
    rfl
  · rintro ⟨d, hd, hdi⟩
    rw [prepareChartData_cells hrow g]
    have hsome : (data.reverse.find?
        (fun d => d.item = row.item ∧ d.group = g)).isSome = true := by
      rw [List.find?_isSome]
      exact ⟨d, List.mem_reverse.mpr hd, by simpa using hdi⟩
    obtain ⟨r, hr⟩ := Option.isSome_iff_exists.mp hsome
    rw [hr]
    rfl

/-- C3 witness: on wData the pivoted row for i1 has no Male cell (no record of
group Male exists) while its All cell is set. -/
theorem C3_witness : wRow.cells "Male" = none ∧ (wRow.cells "All").isSome = true :=
  ⟨(C3_sparse_group_keys wData wRow
      (List.mem_map.mpr ⟨"i1", by decide, rfl⟩) "Male").1 (by decide),
    (C3_sparse_group_keys wData wRow
      (List.mem_map.mpr ⟨"i1", by decide, rfl⟩) "All").2 (by decide)⟩

/-- C8 counterexample: the claim says the row's label equals the `item_label`
of the first record with that item, falling back only when it is absent.  On
the singleton input whose record carries the present label "" the claim
demands label "", but the pivot produces the item key "a": JS `||` also falls
back on the present-but-empty (falsy) label. -/
theorem C8_counterexample :
    cexLabelRecord.item_label = some "" ∧
    (prepareChartData [cexLabelRecord]).map (·.label) = ["a"] ∧
    ("a" : String) ≠ "" := by
  refine ⟨rfl, ?_, by decide⟩
  rfl

/-- C8 (amended): the row's `label` equals the `item_label` of the first
record of the subset with that item value when that label is present and
non-empty, and falls back to the item key itself when the label is absent OR
present but empty (the JS `||` fallback fires on any falsy label, not only on
an absent one). -/
theorem C8_label_from_first_record (data : List SummaryRecord) (row : ChartRow)
    (hrow : row ∈ prepareChartData data) :
    (∀ s : String,
      (data.filter (fun d => d.item = row.item)).head?.bind (·.item_label) = some s →
      s ≠ "" → row.label = s) ∧
    ((data.filter (fun d => d.item = row.item)).head?.bind (·.item_label) = none →
      row.label = row.item) ∧
    ((data.filter (fun d => d.item = row.item)).head?.bind (·.item_label) = some "" →
      row.label = row.item) := by
  refine ⟨fun s hs hne => ?_, fun hn => ?_, fun he => ?_⟩
  · rw [prepareChartData_label hrow, hs]
    simp [jsLabelOr, hne]
  · rw [prepareChartData_label hrow, hn]
    rfl
  · rw [prepareChartData_label hrow, he]
    rfl

/-- C8 witness: on wData the first record for item i1 carries the non-empty
label "Item One", and the pivoted row's label is exactly it. -/
theorem C8_witness : wRow.label = "Item One" :=
  (C8_label_from_first_record wData wRow
    (List.mem_map.mpr ⟨"i1", by decide, rfl⟩)).1 "Item One" rfl (by decide)

/-- C10: the label fallback fires on any falsy `item_label`, not only on an
absent one — when the first record with the row's item has `item_label`
present but equal to the empty string, the row's label is the item key. -/
theorem C10_falsy_label_falls_back (data : List SummaryRecord) (row : ChartRow)
    (hrow : row ∈ prepareChartData data)
    (hempty : (data.filter (fun d => d.item = row.item)).head?.bind (·.item_label)
      = some "") :
    row.label = row.item := by
  rw [prepareChartData_label hrow, hempty]
  rfl

/-- C10 witness: the pivoted row of the record with present-but-empty label
gets the item key "a" as its label. -/
theorem C10_witness : cexLabelRow.label = cexLabelRow.item :=
  C10_falsy_label_falls_back [cexLabelRecord] cexLabelRow
    (List.mem_map.mpr ⟨"a", by decide, rfl⟩) rfl

/-- C7 counterexample: the claim says the group list consumed downstream is
Group Discovery on the selected category's subset.  On cexState (one item
record of group A, one scale record of group B) with view "items", the code's
dashboard carries the group list [A, B] — discovered on the WHOLE
demographic-filtered subset (line 83 uses filteredData) — while discovery on
the selected category's subset would give [A]. -/
theorem C7_counterexample :
    renderApp cexState "Overall" "items" =
      .dashboard [cexItemRec, cexScaleRec] [cexItemRec] [cexScaleRec]
        ["A", "B"] (prepareChartData [cexItemRec]) ∧
    discoverGroupsOnCategory cexState wMd "Overall" "items" = ["A"] ∧
    (["A", "B"] : List String) ≠ ["A"] := by
  refine ⟨rfl, rfl, by decide⟩

/-- C7 (amended): on any selection change the recomputation runs Group
Discovery on the WHOLE demographic-filtered subset, not on the selected
category's subset: whenever the dashboard renders, its group list equals
discoverGroups of filterByDemographic, it is identical under either category
view, and it covers exactly the groups occurring in the filtered subset. -/
theorem C7_groups_from_whole_filtered_subset (s : AppState) (md : Metadata)
    (dem view view' : String) (hl : s.loading = false) (he : s.error = none)
    (hm : s.metadata = some md) :
    dashboardGroups (renderApp s dem view) =
      some (discoverGroups (filterByDemographic s.summaries dem)) ∧
    dashboardGroups (renderApp s dem view) = dashboardGroups (renderApp s dem view') ∧
    (∀ g, g ∈ discoverGroups (filterByDemographic s.summaries dem) ↔
      g ∈ (filterByDemographic s.summaries dem).map (·.group)) := by
  refine ⟨?_, ?_, fun g => mem_jsSetDedup⟩
  · simp [renderApp, hl, he, hm, dashboardGroups]
  · simp [renderApp, hl, he, hm, dashboardGroups]

/-- C7 witness: on the loaded error-free cexState the dashboard's group list
is discovery over the whole filtered subset, and agrees between the two
category views. -/
theorem C7_witness :
    dashboardGroups (renderApp cexState "Overall" "items") =
      some (discoverGroups (filterByDemographic cexState.summaries "Overall")) ∧
    dashboardGroups (renderApp cexState "Overall" "items") =
      dashboardGroups (renderApp cexState "Overall" "scales") :=
  ⟨(C7_groups_from_whole_filtered_subset cexState wMd "Overall" "items" "scales"
      rfl rfl rfl).1,
    (C7_groups_from_whole_filtered_subset cexState wMd "Overall" "items" "scales"
      rfl rfl rfl).2.1⟩

/-- C9: before the load completes the app renders only the loading view; if
either fetch fails, the state after the load effect still holds the initial
(empty) summaries and (null) metadata, carries the single load-failure error,
and every subsequent render returns the error view — so no filter, group
discovery or pivot ever runs on a partially populated store; and in general
the two stores are either both written (both fetches fulfilled) or both left
at their initial values. -/
theorem C9_load_failure_terminal_and_atomic (a : FetchResult (List SummaryRecord))
    (b : FetchResult Metadata) :
    (∀ dem view, renderApp initState dem view = .loadingView) ∧
    (((¬ ∃ sd, a = .ok sd) ∨ (¬ ∃ m, b = .ok m)) →
      (loadEffect initState (promiseAll2 a b)).summaries = [] ∧
      (loadEffect initState (promiseAll2 a b)).metadata = none ∧
      (loadEffect initState (promiseAll2 a b)).error = some loadFailureMessage ∧
      ∀ dem view, renderApp (loadEffect initState (promiseAll2 a b)) dem view
        = .errorView loadFailureMessage) ∧
    (((loadEffect initState (promiseAll2 a b)).summaries = [] ∧
      (loadEffect initState (promiseAll2 a b)).metadata = none) ∨
      (∃ sd m, a = .ok sd ∧ b = .ok m ∧
        (loadEffect initState (promiseAll2 a b)).summaries = sd ∧
        (loadEffect initState (promiseAll2 a b)).metadata = some m)) := by
  refine ⟨fun dem view => rfl, ?_, ?_⟩
  · intro h
    cases a with
    | error e => exact ⟨rfl, rfl, rfl, fun dem view => rfl⟩
    | ok sd =>
      cases b with
      | error e => exact ⟨rfl, rfl, rfl, fun dem view => rfl⟩
      | ok m =>
        rcases h with h | h
        · exact absurd ⟨sd, rfl⟩ h
        · exact absurd ⟨m, rfl⟩ h
  · cases a with
    | error e => exact .inl ⟨rfl, rfl⟩
    | ok sd =>
      cases b with
      | error e => exact .inl ⟨rfl, rfl⟩
      | ok m => exact .inr ⟨sd, m, rfl, rfl, rfl, rfl⟩

/-- C9 witness: with a rejected summaries fetch and a fulfilled metadata
fetch, the post-load state keeps the initial stores, records the load-failure
message, and a concrete render returns the error view. -/
theorem C9_witness :
    (loadEffect initState (promiseAll2 wFetchFail wFetchMd)).summaries = [] ∧
    (loadEffect initState (promiseAll2 wFetchFail wFetchMd)).metadata = none ∧
    (loadEffect initState (promiseAll2 wFetchFail wFetchMd)).error
      = some loadFailureMessage ∧
    renderApp (loadEffect initState (promiseAll2 wFetchFail wFetchMd))
      "Overall" "items" = .errorView loadFailureMessage := by
  have h := (C9_load_failure_terminal_and_atomic wFetchFail wFetchMd).2.1
    (.inl (by simp [wFetchFail]))
  exact ⟨h.1, h.2.1, h.2.2.1, h.2.2.2 "Overall" "items"⟩

end UasTeenExplorer
